import Mathlib

/-!
Verification of the blink single-cube wgpu viewer (src/main.rs).

The development shallowly embeds the data model and the event handlers of
the application: the cube geometry over exact rationals (the f32 literals
in the source, such as 1.0 and 0.5, are exactly representable), the camera
and matrix mathematics over the reals, and the winit event handlers as
explicit state-passing functions that also return a trace of the external
GPU calls they issue. Fallible code (the unwrap calls in the source) is
modelled with Option: a result of none marks a process-terminating panic.
-/

namespace Blink

/-
===========================================================================
Geometry table (main.rs lines 56-61, 365-389), over exact rationals.
===========================================================================
-/

/-- Vertex from main.rs lines 56-61: position and color, three floats each.
All component literals used by the program are exactly representable. -/
structure Vertex where
  position : ℚ × ℚ × ℚ
  color : ℚ × ℚ × ℚ
deriving DecidableEq

/-- create_cube_vertices, main.rs lines 365-378: the eight cube corners. -/
def create_cube_vertices : List Vertex :=
  [⟨(-1, -1, 1), (1, 0, 0)⟩,
   ⟨(1, -1, 1), (0, 1, 0)⟩,
   ⟨(1, 1, 1), (0, 0, 1)⟩,
   ⟨(-1, 1, 1), (1, 1, 0)⟩,
   ⟨(-1, -1, -1), (1, 0, 1)⟩,
   ⟨(-1, 1, -1), (0, 1, 1)⟩,
   ⟨(1, 1, -1), (1, 1, 1)⟩,
   ⟨(1, -1, -1), (1/2, 1/2, 1/2)⟩]

/-- create_cube_indices, main.rs lines 380-389: 36 u16 indices, six faces
of two triangles each. The u16 values are modelled as naturals. -/
def create_cube_indices : List ℕ :=
  [0, 1, 2, 2, 3, 0,
   4, 5, 6, 6, 7, 4,
   0, 4, 7, 7, 1, 0,
   2, 6, 5, 5, 3, 2,
   0, 3, 5, 5, 4, 0,
   1, 7, 6, 6, 2, 1]

/-- Group a flat index list into consecutive triples, as the TriangleList
topology of the pipeline (main.rs line 237) consumes it. -/
def toTriples : List ℕ → List (ℕ × ℕ × ℕ)
  | a :: b :: c :: rest => (a, b, c) :: toTriples rest
  | _ => []

/-- The twelve triangles drawn by draw_indexed(0..36) (main.rs line 356). -/
def triangles : List (ℕ × ℕ × ℕ) := toTriples create_cube_indices

/-- Group a list into consecutive pairs; applied to the triangle list it
yields the two triangles of each cube face. -/
def toPairs {α : Type} : List α → List (α × α)
  | a :: b :: rest => (a, b) :: toPairs rest
  | _ => []

/-- The six face pairs of triangles. -/
def facePairs : List ((ℕ × ℕ × ℕ) × (ℕ × ℕ × ℕ)) := toPairs triangles

/-- Number of distinct vertex indices shared by two triangles; a shared
edge means exactly two shared vertices. -/
def sharedCount (t u : ℕ × ℕ × ℕ) : ℕ :=
  (List.filter (fun v => v ∈ [u.1, u.2.1, u.2.2])
    (List.dedup [t.1, t.2.1, t.2.2])).length

/-- Position of the vertex with the given index in the cube vertex table. -/
def posOf (i : ℕ) : ℚ × ℚ × ℚ :=
  (create_cube_vertices.getD i ⟨(0, 0, 0), (0, 0, 0)⟩).position

/-- Componentwise difference of 3-vectors over ℚ. -/
def sub3 (a b : ℚ × ℚ × ℚ) : ℚ × ℚ × ℚ :=
  (a.1 - b.1, a.2.1 - b.2.1, a.2.2 - b.2.2)

/-- Componentwise sum of 3-vectors over ℚ. -/
def add3 (a b : ℚ × ℚ × ℚ) : ℚ × ℚ × ℚ :=
  (a.1 + b.1, a.2.1 + b.2.1, a.2.2 + b.2.2)

/-- Cross product over ℚ. -/
def cross3 (a b : ℚ × ℚ × ℚ) : ℚ × ℚ × ℚ :=
  (a.2.1 * b.2.2 - a.2.2 * b.2.1,
   a.2.2 * b.1 - a.1 * b.2.2,
   a.1 * b.2.1 - a.2.1 * b.1)

/-- Dot product over ℚ. -/
def dot3 (a b : ℚ × ℚ × ℚ) : ℚ :=
  a.1 * b.1 + a.2.1 * b.2.1 + a.2.2 * b.2.2

/-- Right-handed normal of an indexed triangle: cross product of its two
edge vectors taken in index order. -/
def triNormal (t : ℕ × ℕ × ℕ) : ℚ × ℚ × ℚ :=
  cross3 (sub3 (posOf t.2.1) (posOf t.1)) (sub3 (posOf t.2.2) (posOf t.1))

/-- Sum of the three corner positions of a triangle (three times its
centroid; the cube is centered at the origin, so a positive dot product of
the normal with this vector says the right-handed normal points outward,
which is exactly the counter-clockwise-front convention of the pipeline,
main.rs line 239). -/
def triCentroidSum (t : ℕ × ℕ × ℕ) : ℚ × ℚ × ℚ :=
  add3 (posOf t.1) (add3 (posOf t.2.1) (posOf t.2.2))

/-
===========================================================================
External effects and events. An Effect records one outbound call made by a
handler to the window or GPU layer, in program order; an Event is one
inbound window event consumed by App::window_event (main.rs lines 102-128).
===========================================================================
-/

/-- One outbound call to the windowing or GPU layer. -/
inductive Effect where
  | surfaceCreate
  | surfaceConfigure (width height : ℕ)
  | acquire
  | writeUniform
  | submit
  | present
  | requestRedraw
  | exitLoop
deriving DecidableEq

/-- Inbound window events consumed by App::window_event; the catch-all arm
of the source ignores every other event. -/
inductive Event where
  | resized (width height : ℕ)
  | redrawRequested
  | closeRequested

/-- Outcome of one surface.get_current_texture() call (main.rs line 318),
the only fallible GPU call a frame makes: success, or a lost/outdated
error. -/
inductive AcquireOutcome where
  | success
  | lost

/-- True exactly on the request-redraw effect. -/
def isRequestRedraw : Effect → Bool
  | .requestRedraw => true
  | _ => false

/-- True exactly on the acquire, submit and present effects. -/
def isASP : Effect → Bool
  | .acquire => true
  | .submit => true
  | .present => true
  | _ => false

/-- A trace restricted to acquire, submit and present consists of whole
frames in order: acquire, then submit, then present, repeatedly. This is
the one-frame-in-flight discipline. -/
inductive FrameChunks : List Effect → Prop where
  | nil : FrameChunks []
  | cons (l : List Effect) : FrameChunks l →
      FrameChunks (Effect.acquire :: Effect.submit :: Effect.present :: l)

/-
===========================================================================
Linear algebra over the reals, embedding the glam types and operations the
program uses (Vec3, Quat, Mat4). The f32 values of the program are
modelled as real numbers; every formula is the scalar formula of the glam
library functions named in the source.
===========================================================================
-/

noncomputable section

/-- glam Vec3. -/
structure Vec3 where
  x : ℝ
  y : ℝ
  z : ℝ

/-- Vec3 negation, used by -self.position (main.rs line 48). -/
def Vec3.neg (v : Vec3) : Vec3 := ⟨-v.x, -v.y, -v.z⟩

/-- glam Vec3::X, the world right axis. -/
def Vec3.X : Vec3 := ⟨1, 0, 0⟩

/-- glam Vec3::Y, the world up axis. -/
def Vec3.Y : Vec3 := ⟨0, 1, 0⟩

/-- glam Quat, stored as x, y, z, w. -/
@[ext]
structure Quat where
  x : ℝ
  y : ℝ
  z : ℝ
  w : ℝ

/-- glam Quat::IDENTITY. -/
def Quat.IDENTITY : Quat := ⟨0, 0, 0, 1⟩

/-- glam quaternion Hamilton product (Quat::mul_quat). -/
def Quat.mul (a b : Quat) : Quat :=
  ⟨a.w * b.x + a.x * b.w + a.y * b.z - a.z * b.y,
   a.w * b.y - a.x * b.z + a.y * b.w + a.z * b.x,
   a.w * b.z + a.x * b.y - a.y * b.x + a.z * b.w,
   a.w * b.w - a.x * b.x - a.y * b.y - a.z * b.z⟩

/-- glam Quat::from_axis_angle: the axis scaled by sin of half the angle,
with w the cos of half the angle. -/
def Quat.from_axis_angle (axis : Vec3) (angle : ℝ) : Quat :=
  ⟨axis.x * Real.sin (angle / 2), axis.y * Real.sin (angle / 2),
   axis.z * Real.sin (angle / 2), Real.cos (angle / 2)⟩

/-- Squared norm of a quaternion (glam Quat::length_squared). -/
def Quat.normSq (q : Quat) : ℝ := q.x ^ 2 + q.y ^ 2 + q.z ^ 2 + q.w ^ 2

/-- glam Vec4. -/
structure Vec4 where
  x : ℝ
  y : ℝ
  z : ℝ
  w : ℝ

/-- Componentwise Vec4 addition. -/
def Vec4.add (a b : Vec4) : Vec4 := ⟨a.x + b.x, a.y + b.y, a.z + b.z, a.w + b.w⟩

/-- Vec4 scaled by a scalar. -/
def Vec4.smul (t : ℝ) (v : Vec4) : Vec4 := ⟨t * v.x, t * v.y, t * v.z, t * v.w⟩

/-- glam Mat4: four column vectors. -/
structure Mat4 where
  x_axis : Vec4
  y_axis : Vec4
  z_axis : Vec4
  w_axis : Vec4

/-- glam Mat4::mul_vec4: linear combination of the columns. -/
def Mat4.mulVec4 (m : Mat4) (v : Vec4) : Vec4 :=
  Vec4.add (Vec4.add (Vec4.smul v.x m.x_axis) (Vec4.smul v.y m.y_axis))
    (Vec4.add (Vec4.smul v.z m.z_axis) (Vec4.smul v.w m.w_axis))

/-- glam Mat4 multiplication: each column of the product is the left
matrix applied to the corresponding column of the right matrix. -/
def Mat4.mul (m n : Mat4) : Mat4 :=
  ⟨m.mulVec4 n.x_axis, m.mulVec4 n.y_axis, m.mulVec4 n.z_axis, m.mulVec4 n.w_axis⟩

/-- glam Mat4::from_translation: identity columns with the translation in
the fourth column. -/
def Mat4.from_translation (t : Vec3) : Mat4 :=
  ⟨⟨1, 0, 0, 0⟩, ⟨0, 1, 0, 0⟩, ⟨0, 0, 1, 0⟩, ⟨t.x, t.y, t.z, 1⟩⟩

/-- glam Mat4::from_quat, by the scalar quat_to_axes formulas. -/
def Mat4.from_quat (q : Quat) : Mat4 :=
  ⟨⟨1 - (q.y * (q.y + q.y) + q.z * (q.z + q.z)),
    q.x * (q.y + q.y) + q.w * (q.z + q.z),
    q.x * (q.z + q.z) - q.w * (q.y + q.y), 0⟩,
   ⟨q.x * (q.y + q.y) - q.w * (q.z + q.z),
    1 - (q.x * (q.x + q.x) + q.z * (q.z + q.z)),
    q.y * (q.z + q.z) + q.w * (q.x + q.x), 0⟩,
   ⟨q.x * (q.z + q.z) + q.w * (q.y + q.y),
    q.y * (q.z + q.z) - q.w * (q.x + q.x),
    1 - (q.x * (q.x + q.x) + q.y * (q.y + q.y)), 0⟩,
   ⟨0, 0, 0, 1⟩⟩

/-- glam Mat4::perspective_rh: h is cos over sin of half the vertical
field of view, w is h over the aspect ratio, r is far over near minus far. -/
def Mat4.perspective_rh (fov_y aspect z_near z_far : ℝ) : Mat4 :=
  ⟨⟨Real.cos (fov_y / 2) / Real.sin (fov_y / 2) / aspect, 0, 0, 0⟩,
   ⟨0, Real.cos (fov_y / 2) / Real.sin (fov_y / 2), 0, 0⟩,
   ⟨0, 0, z_far / (z_near - z_far), -1⟩,
   ⟨0, 0, z_far / (z_near - z_far) * z_near, 0⟩⟩

/-- glam Mat4::to_cols_array_2d: the four columns in order, so the nested
array is the column-major layout of the matrix. -/
def Mat4.to_cols_array_2d (m : Mat4) : List (List ℝ) :=
  [[m.x_axis.x, m.x_axis.y, m.x_axis.z, m.x_axis.w],
   [m.y_axis.x, m.y_axis.y, m.y_axis.z, m.y_axis.w],
   [m.z_axis.x, m.z_axis.y, m.z_axis.z, m.z_axis.w],
   [m.w_axis.x, m.w_axis.y, m.w_axis.z, m.w_axis.w]]

/-
===========================================================================
Camera (main.rs lines 23-54) and the pointer-motion handler
(main.rs lines 130-149).
===========================================================================
-/

/-- Camera state, main.rs lines 23-31. -/
structure Camera where
  position : Vec3
  rotation : Quat
  fov : ℝ
  aspect : ℝ
  near : ℝ
  far : ℝ

/-- Camera::default, main.rs lines 33-44: position on the +Z axis,
identity rotation, 45 degrees converted to radians, unit aspect. -/
def Camera.default : Camera :=
  ⟨⟨0, 0, 5⟩, Quat.IDENTITY, 45 * Real.pi / 180, 1, 1 / 10, 100⟩

/-- Camera::view_matrix, main.rs lines 47-49. -/
def Camera.view_matrix (c : Camera) : Mat4 :=
  Mat4.mul (Mat4.from_translation (Vec3.neg c.position)) (Mat4.from_quat c.rotation)

/-- Camera::projection_matrix, main.rs lines 51-53. -/
def Camera.projection_matrix (c : Camera) : Mat4 :=
  Mat4.perspective_rh c.fov c.aspect c.near c.far

/-- The mouse sensitivity constant, main.rs line 137. The decimal literal
0.01 denotes one hundredth exactly here. -/
def sensitivity : ℝ := 0.01

/-- The camera mutation of the MouseMotion arm of device_event, main.rs
lines 136-144: two axis-angle rotations from the scaled deltas, their
product left-multiplied onto the current rotation. -/
def Camera.apply_pointer_delta (c : Camera) (dx dy : ℝ) : Camera :=
  { c with rotation :=
      (Quat.mul
        (Quat.mul (Quat.from_axis_angle Vec3.Y (dx * sensitivity))
          (Quat.from_axis_angle Vec3.X (dy * sensitivity)))
        c.rotation) }

/-- A whole sequence of pointer-motion events applied in order. -/
def applyDeltas (c : Camera) (ds : List (ℝ × ℝ)) : Camera :=
  ds.foldl (fun a d => Camera.apply_pointer_delta a d.1 d.2) c

/-- The combined matrix the program writes into the uniform buffer, both
at startup (main.rs lines 277-279) and each frame (lines 322-325):
projection times view, flattened column-major by to_cols_array_2d. -/
def uniformsViewProj (c : Camera) : List (List ℝ) :=
  Mat4.to_cols_array_2d (Mat4.mul (Camera.projection_matrix c) (Camera.view_matrix c))

/-
===========================================================================
Application state and event handlers (main.rs lines 8-21, 102-128,
311-362). Opaque GPU handles are modelled as Option Unit: present or not.
The GPU-visible contents of the vertex, index and uniform buffers are
carried in place of their handles, so that a write to a buffer is a state
change. A handler returns none where the source would reach a failing
unwrap and abort the process; otherwise it returns the new state together
with the trace of outbound calls it made, in program order.
===========================================================================
-/

/-- Surface configuration, the width and height fields mutated on resize
(main.rs lines 116-117); the remaining fields of the source configuration
(format, present mode, alpha mode) are constants never read by the
handlers modelled here. -/
structure SurfaceConfiguration where
  width : ℕ
  height : ℕ

/-- App, main.rs lines 8-21. The instance field of the source is named
appInstance because its source name is reserved in Lean. -/
structure App where
  window : Option Unit
  appInstance : Option Unit
  device : Option Unit
  queue : Option Unit
  config : Option SurfaceConfiguration
  camera : Camera
  render_pipeline : Option Unit
  vertex_buffer : Option (List Vertex)
  index_buffer : Option (List ℕ)
  uniform_buffer : Option (List (List ℝ))
  uniform_bind_group : Option Unit

/-- App::default (derived Default, main.rs line 8): every handle is None
and the camera takes its defaults. -/
def App.default : App :=
  ⟨none, none, none, none, none, Camera.default, none, none, none, none, none⟩

/-- The state after resumed plus init_graphics (main.rs lines 91-100,
153-293) for a window of the given inner size: every handle present, the
geometry buffers holding the cube data, and the uniform buffer holding the
view-projection matrix of the default camera (lines 275-282). -/
def init_graphics (width height : ℕ) : App :=
  ⟨some (), some (), some (), some (), some ⟨width, height⟩, Camera.default,
   some (), some create_cube_vertices, some create_cube_indices,
   some (uniformsViewProj Camera.default), some ()⟩

/-- App::render, main.rs lines 311-362. The eight resources of the guard
tuple (line 312-313) must all be present, else the whole body is skipped
with no effect. Inside the guard the source unwraps the window (line 315),
creates and configures a fresh surface (lines 316-317), unwraps the
acquired image (line 318) -- a lost or outdated acquire aborts the process
-- then unwraps the uniform buffer and overwrites its contents with the
current view-projection matrix (lines 322-325), records and submits the
draw, and presents (lines 327-360). -/
def App.render (s : App) (o : AcquireOutcome) : Option (App × List Effect) :=
  match s.device, s.appInstance, s.queue, s.config, s.render_pipeline,
      s.vertex_buffer, s.index_buffer, s.uniform_bind_group with
  | some _, some _, some _, some cfg, some _, some _, some _, some _ =>
    match s.window with
    | none => none
    | some _ =>
      match o with
      | .lost => none
      | .success =>
        match s.uniform_buffer with
        | none => none
        | some _ =>
          some ({ s with uniform_buffer := some (uniformsViewProj s.camera) },
            [.surfaceCreate, .surfaceConfigure cfg.width cfg.height, .acquire,
             .writeUniform, .submit, .present])
  | _, _, _, _, _, _, _, _ => some (s, [])

/-- App::window_event, main.rs lines 102-128. CloseRequested exits the
loop. RedrawRequested renders, then unwraps the window and requests the
next redraw (lines 108-112). Resized, when device, instance and config are
all present, stores the new size into the configuration, unwraps the
window, creates and configures a fresh surface, and sets the camera aspect
to width over height (lines 113-122); in every case it then unwraps the
window and requests a redraw (line 124). -/
def App.window_event (s : App) (ev : Event) (o : AcquireOutcome) :
    Option (App × List Effect) :=
  match ev with
  | .closeRequested => some (s, [.exitLoop])
  | .redrawRequested =>
    match App.render s o with
    | none => none
    | some (s1, eff) =>
      match s1.window with
      | none => none
      | some _ => some (s1, eff ++ [.requestRedraw])
  | .resized w h =>
    match s.device, s.appInstance, s.config with
    | some _, some _, some cfg =>
      match s.window with
      | none => none
      | some _ =>
        some ({ s with
            config := some { cfg with width := w, height := h },
            camera := { s.camera with aspect := (w : ℝ) / (h : ℝ) } },
          [.surfaceCreate, .surfaceConfigure w h, .requestRedraw])
    | _, _, _ =>
      match s.window with
      | none => none
      | some _ => some (s, [.requestRedraw])

/-- The event loop: dispatch a list of window events in order, each with
the acquire outcome its frame would see, concatenating the effect traces.
A handler that aborts the process ends the run. -/
def run : App → List (Event × AcquireOutcome) → App × List Effect
  | s, [] => (s, [])
  | s, (ev, o) :: rest =>
    match App.window_event s ev o with
    | none => (s, [])
    | some (s1, eff) =>
      ((run s1 rest).1, eff ++ (run s1 rest).2)

/-- The state and trace of one render with the aborted case defaulted to
the unchanged state and the empty trace. -/
def renderD (s : App) (o : AcquireOutcome) : App × List Effect :=
  (App.render s o).getD (s, [])

/-- The state and trace of one handled window event with the aborted case
defaulted to the unchanged state and the empty trace. -/
def stepD (s : App) (ev : Event) (o : AcquireOutcome) : App × List Effect :=
  (App.window_event s ev o).getD (s, [])

end

/-
===========================================================================
Theorems.
===========================================================================
-/

/-- Vertex 0 position, evaluated from the table. -/
theorem posOf_0 : posOf 0 = ((-1 : ℚ), (-1 : ℚ), (1 : ℚ)) := rfl

/-- Vertex 1 position, evaluated from the table. -/
theorem posOf_1 : posOf 1 = ((1 : ℚ), (-1 : ℚ), (1 : ℚ)) := rfl

/-- Vertex 2 position, evaluated from the table. -/
theorem posOf_2 : posOf 2 = ((1 : ℚ), (1 : ℚ), (1 : ℚ)) := rfl

/-- Vertex 3 position, evaluated from the table. -/
theorem posOf_3 : posOf 3 = ((-1 : ℚ), (1 : ℚ), (1 : ℚ)) := rfl

/-- Vertex 4 position, evaluated from the table. -/
theorem posOf_4 : posOf 4 = ((-1 : ℚ), (-1 : ℚ), (-1 : ℚ)) := rfl

/-- Vertex 5 position, evaluated from the table. -/
theorem posOf_5 : posOf 5 = ((-1 : ℚ), (1 : ℚ), (-1 : ℚ)) := rfl

/-- Vertex 6 position, evaluated from the table. -/
theorem posOf_6 : posOf 6 = ((1 : ℚ), (1 : ℚ), (-1 : ℚ)) := rfl

/-- Vertex 7 position, evaluated from the table. -/
theorem posOf_7 : posOf 7 = ((1 : ℚ), (-1 : ℚ), (-1 : ℚ)) := rfl

/-- C6: the static index sequence has exactly 36 entries, every entry is in
[0,7] (hence fits u16), the entries form 12 triangles (two per face for six
faces), the two triangles of every face share an edge (exactly two common
vertex indices), and every triangle is wound counter-clockwise with respect
to the outward normal of its face (its right-handed normal has positive dot
product with the triangle centroid of the origin-centered cube). -/
theorem cube_index_integrity :
    create_cube_indices.length = 36
  ∧ (∀ i ∈ create_cube_indices, i ≤ 7)
  ∧ triangles.length = 12
  ∧ facePairs.length = 6
  ∧ (∀ p ∈ facePairs, sharedCount p.1 p.2 = 2)
  ∧ (∀ t ∈ triangles, 0 < dot3 (triNormal t) (triCentroidSum t)) := by
  refine ⟨rfl, by decide, rfl, rfl, by decide, ?_⟩
  intro t ht
  have htri : triangles =
      [(0, 1, 2), (2, 3, 0), (4, 5, 6), (6, 7, 4), (0, 4, 7), (7, 1, 0),
       (2, 6, 5), (5, 3, 2), (0, 3, 5), (5, 4, 0), (1, 7, 6), (6, 2, 1)] := rfl
  rw [htri] at ht
  fin_cases ht <;>
    norm_num [dot3, triNormal, triCentroidSum, cross3, sub3, add3,
      posOf_0, posOf_1, posOf_2, posOf_3, posOf_4, posOf_5, posOf_6, posOf_7]

/-- The Hamilton product is associative. -/
theorem Quat.mul_assoc (a b c : Quat) :
    Quat.mul (Quat.mul a b) c = Quat.mul a (Quat.mul b c) := by
  ext <;> simp [Quat.mul] <;> ring

/-- The identity quaternion is a right unit for the Hamilton product. -/
theorem Quat.mul_identity (q : Quat) : Quat.mul q Quat.IDENTITY = q := by
  ext <;> simp [Quat.mul, Quat.IDENTITY]

/-- An axis-angle rotation by angle zero is the identity quaternion. -/
theorem from_axis_angle_X_zero :
    Quat.from_axis_angle Vec3.X 0 = Quat.IDENTITY := by
  ext <;> simp [Quat.from_axis_angle, Vec3.X, Quat.IDENTITY]

/-- The squared norm is multiplicative for the Hamilton product. -/
theorem Quat.normSq_mul (a b : Quat) :
    Quat.normSq (Quat.mul a b) = Quat.normSq a * Quat.normSq b := by
  simp only [Quat.mul, Quat.normSq]
  ring

/-- Axis-angle rotations about the world up axis are unit quaternions. -/
theorem Quat.normSq_from_axis_angle_Y (t : ℝ) :
    Quat.normSq (Quat.from_axis_angle Vec3.Y t) = 1 := by
  simp [Quat.from_axis_angle, Vec3.Y, Quat.normSq]

/-- Axis-angle rotations about the world right axis are unit quaternions. -/
theorem Quat.normSq_from_axis_angle_X (t : ℝ) :
    Quat.normSq (Quat.from_axis_angle Vec3.X t) = 1 := by
  simp [Quat.from_axis_angle, Vec3.X, Quat.normSq]

/-- Applying any delta sequence to a camera with a unit rotation leaves a
unit rotation. -/
theorem applyDeltas_unit (ds : List (ℝ × ℝ)) (c : Camera)
    (h : Quat.normSq c.rotation = 1) :
    Quat.normSq ((applyDeltas c ds).rotation) = 1 := by
  induction ds generalizing c with
  | nil => simpa [applyDeltas] using h
  | cons d rest ih =>
    have hstep : Quat.normSq ((Camera.apply_pointer_delta c d.1 d.2).rotation) = 1 := by
      simp [Camera.apply_pointer_delta, Quat.normSq_mul,
        Quat.normSq_from_axis_angle_Y, Quat.normSq_from_axis_angle_X, h]
    have hrest := ih (Camera.apply_pointer_delta c d.1 d.2) hstep
    simpa [applyDeltas] using hrest

/-- C3: each pointer-motion event sets the rotation to yaw composed with
pitch composed with the old rotation, where yaw is the axis-angle rotation
about the world up axis by dx times the sensitivity and pitch the
axis-angle rotation about the world right axis by dy times the
sensitivity; at dx = 100, dy = 0 the result is a pure yaw of exactly one
radian about the world up axis composed onto the old rotation, the pitch
factor being the identity. -/
theorem pointer_delta_composes_yaw_pitch (c : Camera) (dx dy : ℝ) :
    (Camera.apply_pointer_delta c dx dy).rotation
        = Quat.mul (Quat.from_axis_angle Vec3.Y (dx * sensitivity))
            (Quat.mul (Quat.from_axis_angle Vec3.X (dy * sensitivity)) c.rotation)
  ∧ (Camera.apply_pointer_delta c 100 0).rotation
        = Quat.mul (Quat.from_axis_angle Vec3.Y 1) c.rotation := by
  constructor
  · simp only [Camera.apply_pointer_delta]
    exact Quat.mul_assoc _ _ _
  · simp only [Camera.apply_pointer_delta]
    have h1 : (100 : ℝ) * sensitivity = 1 := by norm_num [sensitivity]
    have h2 : (0 : ℝ) * sensitivity = 0 := by ring
    rw [h1, h2, from_axis_angle_X_zero, Quat.mul_identity]

/-- C4: starting from the default camera, the rotation stays an exactly
unit-norm quaternion after every pointer-motion event of any sequence (the
reals model the f32 arithmetic, so the tolerance of the claim is exact
equality here). -/
theorem rotation_stays_unit (ds : List (ℝ × ℝ)) :
    Quat.normSq ((applyDeltas Camera.default ds).rotation) = 1 :=
  applyDeltas_unit ds Camera.default
    (by norm_num [Camera.default, Quat.IDENTITY, Quat.normSq])

/-- C5: the view matrix is the translation by the negated position times
the rotation matrix of the quaternion; the projection matrix is the
right-handed perspective matrix of fov, aspect, near and far; and whenever
a render changes the uniform buffer contents at all, the new contents are
exactly projection times view flattened in column-major order, as happens
on the fully initialized application. -/
theorem view_proj_formula :
    (∀ c : Camera, Camera.view_matrix c
        = Mat4.mul (Mat4.from_translation (Vec3.neg c.position)) (Mat4.from_quat c.rotation))
  ∧ (∀ c : Camera, Camera.projection_matrix c
        = Mat4.perspective_rh c.fov c.aspect c.near c.far)
  ∧ (∀ (s : App) (o : AcquireOutcome),
        (renderD s o).1.uniform_buffer = s.uniform_buffer
        ∨ (renderD s o).1.uniform_buffer
            = some (Mat4.to_cols_array_2d
                (Mat4.mul (Camera.projection_matrix s.camera) (Camera.view_matrix s.camera))))
  ∧ (renderD (init_graphics 800 600) AcquireOutcome.success).1.uniform_buffer
      = some (Mat4.to_cols_array_2d
          (Mat4.mul (Camera.projection_matrix Camera.default) (Camera.view_matrix Camera.default))) := by
  refine ⟨fun _ => rfl, fun _ => rfl, ?_, rfl⟩
  intro s o
  unfold renderD App.render
  split
  · split
    · left; rfl
    · split
      · left; rfl
      · split
        · left; rfl
        · right; rfl
  · left; rfl

/-- A render either aborts, or skips its body leaving the state unchanged
with no trace, or completes writing the uniform buffer and emitting the
six-call frame block. -/
theorem render_cases (s : App) (o : AcquireOutcome) :
    App.render s o = none
  ∨ App.render s o = some (s, [])
  ∨ ∃ w h, App.render s o
      = some ({ s with uniform_buffer := some (uniformsViewProj s.camera) },
          [Effect.surfaceCreate, Effect.surfaceConfigure w h, Effect.acquire,
           Effect.writeUniform, Effect.submit, Effect.present]) := by
  unfold App.render
  split
  · split
    · exact Or.inl rfl
    · split
      · exact Or.inl rfl
      · split
        · exact Or.inl rfl
        · exact Or.inr (Or.inr ⟨_, _, rfl⟩)
  · exact Or.inr (Or.inl rfl)

/-- A handled redraw-request either aborts, or yields the state of the
render together with its trace followed by exactly one redraw request,
where the render trace is empty or the six-call frame block. -/
theorem window_event_redraw_cases (s : App) (o : AcquireOutcome) :
    App.window_event s Event.redrawRequested o = none
  ∨ ∃ s1 eff, App.window_event s Event.redrawRequested o
        = some (s1, eff ++ [Effect.requestRedraw])
      ∧ (eff = []
        ∨ ∃ w h, eff = [Effect.surfaceCreate, Effect.surfaceConfigure w h,
            Effect.acquire, Effect.writeUniform, Effect.submit, Effect.present]) := by
  rcases render_cases s o with hc | hc | ⟨w, h, hc⟩
  · left
    simp [App.window_event, hc]
  · cases hw : s.window with
    | none =>
      left
      simp [App.window_event, hc, hw]
    | some u =>
      right
      exact ⟨s, [], by simp [App.window_event, hc, hw], Or.inl rfl⟩
  · cases hw : s.window with
    | none =>
      left
      simp [App.window_event, hc, hw]
    | some u =>
      right
      refine ⟨{ s with uniform_buffer := some (uniformsViewProj s.camera) },
        [Effect.surfaceCreate, Effect.surfaceConfigure w h, Effect.acquire,
         Effect.writeUniform, Effect.submit, Effect.present], ?_, Or.inr ⟨w, h, rfl⟩⟩
      simp [App.window_event, hc, hw]

/-- Every handled window event either aborts or emits a trace whose
acquire, submit and present calls are either absent or exactly the
acquire-submit-present sequence of one frame. -/
theorem window_event_asp (s : App) (ev : Event) (o : AcquireOutcome) :
    App.window_event s ev o = none
  ∨ ∃ s1 eff, App.window_event s ev o = some (s1, eff)
      ∧ (List.filter isASP eff = []
        ∨ List.filter isASP eff = [Effect.acquire, Effect.submit, Effect.present]) := by
  cases ev with
  | closeRequested => exact Or.inr ⟨s, [Effect.exitLoop], rfl, Or.inl rfl⟩
  | redrawRequested =>
    rcases window_event_redraw_cases s o with hc | ⟨s1, eff, hc, hsh⟩
    · exact Or.inl hc
    · refine Or.inr ⟨s1, eff ++ [Effect.requestRedraw], hc, ?_⟩
      rcases hsh with rfl | ⟨w, h, rfl⟩
      · exact Or.inl rfl
      · exact Or.inr rfl
  | resized w h =>
    simp only [App.window_event]
    split
    · split
      · exact Or.inl rfl
      · exact Or.inr ⟨_, _, rfl, Or.inl rfl⟩
    · split
      · exact Or.inl rfl
      · exact Or.inr ⟨s, [Effect.requestRedraw], rfl, Or.inl rfl⟩

/-- Every run of the event loop produces a trace whose acquire, submit and
present calls form whole frames in order. -/
theorem run_frame_chunks (evs : List (Event × AcquireOutcome)) (s : App) :
    FrameChunks (List.filter isASP (run s evs).2) := by
  induction evs generalizing s with
  | nil => simpa [run] using FrameChunks.nil
  | cons p rest ih =>
    obtain ⟨ev, o⟩ := p
    rcases window_event_asp s ev o with hc | ⟨s1, eff, hc, hsh⟩
    · simpa [run, hc] using FrameChunks.nil
    · have hrun : run s ((ev, o) :: rest) = ((run s1 rest).1, eff ++ (run s1 rest).2) := by
        simp [run, hc]
      rw [hrun]
      rcases hsh with hf | hf
      · simpa [List.filter_append, hf] using ih s1
      · rw [List.filter_append, hf]
        exact FrameChunks.cons _ (ih s1)

/-- C7: in every run of the event loop, the trace restricted to acquire,
submit and present calls consists of whole frames in order -- each frame
submits its commands before presenting, and the next acquire only comes
after the previous present; concretely, two successive redraws on the
initialized application produce two such frames. -/
theorem one_frame_in_flight :
    (∀ (s : App) (evs : List (Event × AcquireOutcome)),
        FrameChunks (List.filter isASP (run s evs).2))
  ∧ List.filter isASP (run (init_graphics 800 600)
        [(Event.redrawRequested, AcquireOutcome.success),
         (Event.redrawRequested, AcquireOutcome.success)]).2
      = [Effect.acquire, Effect.submit, Effect.present,
         Effect.acquire, Effect.submit, Effect.present] :=
  ⟨fun s evs => run_frame_chunks evs s, rfl⟩

/-- C8: whenever the redraw-request handler completes, its trace contains
exactly one redraw request, whatever the state and the acquire outcome
(the request is issued after the render, unconditionally). -/
theorem redraw_enqueues_one_redraw (s : App) (o : AcquireOutcome)
    (h : (App.window_event s Event.redrawRequested o).isSome = true) :
    List.filter isRequestRedraw (stepD s Event.redrawRequested o).2
      = [Effect.requestRedraw] := by
  rcases window_event_redraw_cases s o with hc | ⟨s1, eff, hc, hsh⟩
  · rw [hc] at h
    simp at h
  · unfold stepD
    rw [hc]
    rcases hsh with rfl | ⟨w, h2, rfl⟩
    · rfl
    · rfl

/-- Witness for C8: on a state with a window but no GPU resources the
handler completes and requests exactly one redraw. -/
theorem redraw_enqueues_one_redraw_witness :
    (App.window_event { App.default with window := some () }
        Event.redrawRequested AcquireOutcome.success).isSome = true
  ∧ List.filter isRequestRedraw
        (stepD { App.default with window := some () }
          Event.redrawRequested AcquireOutcome.success).2
      = [Effect.requestRedraw] :=
  ⟨rfl, redraw_enqueues_one_redraw _ _ rfl⟩

/-- C9: a render leaves the camera and the vertex and index buffer
contents unchanged, and restoring the previous uniform buffer contents in
its result state recovers the previous state exactly: the uniform buffer
contents are the only thing a render mutates. -/
theorem render_mutates_only_uniform (s : App) (o : AcquireOutcome) :
    (renderD s o).1.camera = s.camera
  ∧ (renderD s o).1.vertex_buffer = s.vertex_buffer
  ∧ (renderD s o).1.index_buffer = s.index_buffer
  ∧ { (renderD s o).1 with uniform_buffer := s.uniform_buffer } = s := by
  unfold renderD App.render
  split
  · split
    · exact ⟨rfl, rfl, rfl, rfl⟩
    · split
      · exact ⟨rfl, rfl, rfl, rfl⟩
      · split
        · exact ⟨rfl, rfl, rfl, rfl⟩
        · exact ⟨rfl, rfl, rfl, rfl⟩
  · exact ⟨rfl, rfl, rfl, rfl⟩

/-- C10: if any of the eight guarded resources is absent the render is a
complete no-op: state unchanged, no outbound call, no abort. -/
theorem render_noop_when_uninitialized (s : App) (o : AcquireOutcome)
    (h : s.device = none ∨ s.appInstance = none ∨ s.queue = none
       ∨ s.config = none ∨ s.render_pipeline = none ∨ s.vertex_buffer = none
       ∨ s.index_buffer = none ∨ s.uniform_bind_group = none) :
    App.render s o = some (s, []) := by
  unfold App.render
  split
  · rcases h with h | h | h | h | h | h | h | h <;> simp_all
  · rfl

/-- Witness for C10: the all-None default application renders as a no-op. -/
theorem render_noop_when_uninitialized_witness :
    App.default.device = none
  ∧ App.render App.default AcquireOutcome.success = some (App.default, []) :=
  ⟨rfl, render_noop_when_uninitialized _ _ (Or.inl rfl)⟩

/-- C1 (the code at the failing input): on the fully initialized
application, a frame whose surface acquire reports lost or outdated makes
App::render -- and with it the whole redraw handler -- abort the process
at the unwrap of get_current_texture; no reconfigure-and-retry happens and
the loop does not continue. -/
theorem acquire_failure_aborts_process :
    App.render (init_graphics 800 600) AcquireOutcome.lost = none
  ∧ App.window_event (init_graphics 800 600) Event.redrawRequested
      AcquireOutcome.lost = none :=
  ⟨rfl, rfl⟩

/-- C2 (the code at the failing input): a resize to height zero on the
initialized application is not a no-op: the handler reconfigures the
surface at 800 by 0, stores the zero height into the configuration, and
overwrites the camera aspect with the quotient 800 over 0 (the division is
performed; in the f32 of the source it yields a non-finite value, in the
real-number model the junk value of division by zero), so the aspect does
change from its previous value 1. -/
theorem zero_height_resize_reconfigures_and_divides :
    Effect.surfaceConfigure 800 0
      ∈ (stepD (init_graphics 800 600) (Event.resized 800 0) AcquireOutcome.success).2
  ∧ (stepD (init_graphics 800 600) (Event.resized 800 0) AcquireOutcome.success).1.config
      = some ⟨800, 0⟩
  ∧ (stepD (init_graphics 800 600) (Event.resized 800 0) AcquireOutcome.success).1.camera.aspect
      = (800 : ℝ) / (0 : ℝ)
  ∧ (stepD (init_graphics 800 600) (Event.resized 800 0) AcquireOutcome.success).1.camera.aspect
      ≠ (init_graphics 800 600).camera.aspect := by
  have hstep : stepD (init_graphics 800 600) (Event.resized 800 0) AcquireOutcome.success
      = ({ init_graphics 800 600 with
            config := some ⟨800, 0⟩,
            camera := { Camera.default with
              aspect := ((800 : ℕ) : ℝ) / ((0 : ℕ) : ℝ) } },
         [Effect.surfaceCreate, Effect.surfaceConfigure 800 0,
          Effect.requestRedraw]) := rfl
  rw [hstep]
  refine ⟨by simp, rfl, by norm_num, ?_⟩
  norm_num [init_graphics, Camera.default]

end Blink
